import Mathlib

/-!
Verification development for the bkp backup engine.

Shallow embedding of the core components (metadata codec, chunker, keystore
envelope code, history engine, ssh backend filename handling) as executable
Lean definitions, with theorems settling the frozen claims about them.

Bytes are modelled as Nat values below 256; byte strings as List Nat.
Machine arithmetic that can overflow in the source is modelled with explicit
truncation; arithmetic proven not to overflow uses plain Nat.
-/

set_option maxRecDepth 4000

namespace Bkp

/-- Decidable equality for `Except`, used to evaluate fallible results with
`decide` in concrete instances. -/
instance exceptDecEq {ε α : Type} [DecidableEq ε] [DecidableEq α] :
    DecidableEq (Except ε α)
  | .ok a, .ok b =>
      decidable_of_iff (a = b) ⟨fun h => by rw [h], fun h => by cases h; rfl⟩
  | .ok _, .error _ => isFalse (by intro h; cases h)
  | .error _, .ok _ => isFalse (by intro h; cases h)
  | .error a, .error b =>
      decidable_of_iff (a = b) ⟨fun h => by rw [h], fun h => by cases h; rfl⟩

/-! ## Byte-level encoding helpers (byteorder crate, little-endian and big-endian) -/

/-- Little-endian encoding of a u16 value (`write_u16::LittleEndian`);
the source casts with `as u16`, so the value is truncated mod 2^16. -/
def u16le (n : Nat) : List Nat := [n % 256, n / 256 % 256]

/-- Little-endian encoding of a u32 value (`write_u32::LittleEndian`). -/
def u32le (n : Nat) : List Nat :=
  [n % 256, n / 256 % 256, n / 256 ^ 2 % 256, n / 256 ^ 3 % 256]

/-- Little-endian encoding of a u64 value (`write_u64::LittleEndian`). -/
def u64le (n : Nat) : List Nat :=
  [n % 256, n / 256 % 256, n / 256 ^ 2 % 256, n / 256 ^ 3 % 256,
   n / 256 ^ 4 % 256, n / 256 ^ 5 % 256, n / 256 ^ 6 % 256, n / 256 ^ 7 % 256]

/-- Big-endian encoding of a u16 value (`write_u16::BigEndian`, keys.rs). -/
def u16be (n : Nat) : List Nat := [n / 256 % 256, n % 256]

/-- Read exactly `n` bytes from the front of a stream (`read_exact`);
fails (None) if fewer are available. -/
def readExact (n : Nat) (l : List Nat) : Option (List Nat × List Nat) :=
  if n ≤ l.length then some (l.take n, l.drop n) else none

/-- Read a single byte (`read_u8`). -/
def readU8 : List Nat → Option (Nat × List Nat)
  | [] => none
  | b :: rest => some (b, rest)

/-- Read a little-endian u16 (`read_u16::LittleEndian`). -/
def readU16le : List Nat → Option (Nat × List Nat)
  | b0 :: b1 :: rest => some (b0 + b1 * 256, rest)
  | _ => none

/-- Read a little-endian u32 (`read_u32::LittleEndian`). -/
def readU32le : List Nat → Option (Nat × List Nat)
  | b0 :: b1 :: b2 :: b3 :: rest =>
      some (b0 + b1 * 256 + b2 * 256 ^ 2 + b3 * 256 ^ 3, rest)
  | _ => none

/-- Read a little-endian u64 (`read_u64::LittleEndian`). -/
def readU64le : List Nat → Option (Nat × List Nat)
  | b0 :: b1 :: b2 :: b3 :: b4 :: b5 :: b6 :: b7 :: rest =>
      some (b0 + b1 * 256 + b2 * 256 ^ 2 + b3 * 256 ^ 3 + b4 * 256 ^ 4 +
            b5 * 256 ^ 5 + b6 * 256 ^ 6 + b7 * 256 ^ 7, rest)
  | _ => none

/-- Read a big-endian u16 (`read_u16::BigEndian`, keys.rs). -/
def readU16be : List Nat → Option (Nat × List Nat)
  | b0 :: b1 :: rest => some (b0 * 256 + b1, rest)
  | _ => none

/-! ## Identity tags and the hash boundary (src/metadata.rs, src/util.rs) -/

/-- IDENTITY_LEN: identity tags are 32 bytes (SHA-256 output length). -/
def IDENTITY_LEN : Nat := 32

/-- Identity tags, `[u8; 32]` in the source, as byte lists. -/
abbrev IdentityTag := List Nat

/-- Split a natural number into `k` little-endian base-256 digits. -/
def natDigits : Nat → Nat → List Nat
  | 0, _ => []
  | k + 1, n => n % 256 :: natDigits k (n / 256)

/-- Modelled from the spec: SHA-256 (the `ring` crate, external to this
repository) computes a 32-byte digest of a byte string.  Modelled as an
executable deterministic 32-byte digest function; none of the claims
depends on the concrete compression function, only on determinism and on
the digest length. -/
def sha256model (l : List Nat) : IdentityTag :=
  natDigits IDENTITY_LEN
    (l.foldl (fun h b => (h * 257 + b + 1) % (2 ^ 256)) 7)

/-! ## Metadata object model (src/metadata.rs) -/

/-- FSMetadata: mtime/atime are SystemTime in the source, stored on the wire
as whole seconds since the Unix epoch; modelled directly as seconds
(times before the epoch clamp to 0 on write and are outside this model).
uid/gid are u32, mode is u32 in memory (written as u16). -/
structure FSMetadata where
  mtime : Nat
  atime : Nat
  uid : Nat
  gid : Nat
  mode : Nat
deriving Repr, DecidableEq

/-- FSMetadata::save: u64 mtime, u64 atime, u32 uid, u32 gid, u16 mode
(the source writes `self.mode as u16`, truncating). -/
def FSMetadata.save (m : FSMetadata) : List Nat :=
  u64le m.mtime ++ u64le m.atime ++ u32le m.uid ++ u32le m.gid ++ u16le m.mode

/-- FSMetadata::load. -/
def FSMetadata.load (l : List Nat) : Option (FSMetadata × List Nat) :=
  match readU64le l with
  | none => none
  | some (mt, l) =>
    match readU64le l with
    | none => none
    | some (at_, l) =>
      match readU32le l with
      | none => none
      | some (uid, l) =>
        match readU32le l with
        | none => none
        | some (gid, l) =>
          match readU16le l with
          | none => none
          | some (mode, l) => some (⟨mt, at_, uid, gid, mode⟩, l)

/-- Snapshot object: creation time (seconds), root tree tag, optional parent. -/
structure Snapshot where
  create_time : Nat
  root : IdentityTag
  parent : Option IdentityTag
deriving Repr, DecidableEq

/-- TreeObject: name bytes, FS metadata, child tags. -/
structure TreeObject where
  name : List Nat
  meta : FSMetadata
  children : List IdentityTag
deriving Repr, DecidableEq

/-- FileObject: name bytes, FS metadata, body block tags. -/
structure FileObject where
  name : List Nat
  meta : FSMetadata
  body : List IdentityTag
deriving Repr, DecidableEq

/-- SymlinkObject: name bytes, FS metadata, target bytes. -/
structure SymlinkObject where
  name : List Nat
  meta : FSMetadata
  target : List Nat
deriving Repr, DecidableEq

/-- The four metadata object kinds. -/
inductive MetaObject where
  | snapshot (s : Snapshot)
  | tree (t : TreeObject)
  | file (f : FileObject)
  | symlink (l : SymlinkObject)
deriving Repr, DecidableEq

/-- MetaObject::name: Snapshot has no name; others return their name bytes. -/
def MetaObject.name : MetaObject → Option (List Nat)
  | .snapshot _ => none
  | .tree t => some t.name
  | .file f => some f.name
  | .symlink l => some l.name

/-- MetaObject::save, as the byte string written to the stream.  The Rust
method feeds these exact bytes through a SHA-256 Hasher and returns the
digest as the identity tag; see `MetaObject.ident`.

Faithful to the source, including the Symlink arm (metadata.rs lines
361-369), which writes `link.name.len()` and `link.name` a second time in
the position where the decoder expects the target length and target bytes. -/
def MetaObject.save : MetaObject → List Nat
  | .snapshot s =>
      [0] ++ u64le s.create_time ++ s.root ++
      (match s.parent with
       | some p => [1] ++ p
       | none => [0])
  | .tree t =>
      [1] ++ u16le t.name.length ++ t.name ++ t.meta.save ++
      u32le t.children.length ++ t.children.flatten
  | .file f =>
      [3] ++ u16le f.name.length ++ f.name ++ f.meta.save ++
      u32le f.body.length ++ f.body.flatten
  | .symlink l =>
      [2] ++ u16le l.name.length ++ l.name ++ l.meta.save ++
      u32le l.name.length ++ l.name

/-- MetaObject::ident: the identity tag is the SHA-256 digest of exactly the
bytes `save` writes. -/
def MetaObject.ident (m : MetaObject) : IdentityTag :=
  sha256model m.save

/-- MetaObject::load_id: read a 32-byte identity tag. -/
def loadId (l : List Nat) : Option (IdentityTag × List Nat) :=
  readExact IDENTITY_LEN l

/-- Read `n` identity tags in sequence (the `for _ in 0..n` loops in load). -/
def loadIds : Nat → List Nat → Option (List IdentityTag × List Nat)
  | 0, l => some ([], l)
  | n + 1, l =>
    match loadId l with
    | none => none
    | some (t, l) =>
      match loadIds n l with
      | none => none
      | some (ts, l) => some (t :: ts, l)

/-- Decode errors of MetaObject::load: end-of-stream I/O errors, and the
InvalidData error for an unknown leading type byte. -/
inductive IOErr where
  | eof
  | invalidData
deriving Repr, DecidableEq

/-- MetaObject::load: dispatch on the leading type byte (0 snapshot, 1 tree,
2 symlink, 3 file); any other value is an InvalidData error.  The source
does not require the stream to be exhausted, so trailing bytes are ignored. -/
def MetaObject.load (l : List Nat) : Except IOErr MetaObject :=
  match readU8 l with
  | none => .error .eof
  | some (0, l) =>
    (match readU64le l with
     | none => .error .eof
     | some (ct, l) =>
       match loadId l with
       | none => .error .eof
       | some (root, l) =>
         match readU8 l with
         | none => .error .eof
         | some (hasParent, l) =>
           if hasParent ≠ 0 then
             match loadId l with
             | none => .error .eof
             | some (p, _) => .ok (.snapshot ⟨ct, root, some p⟩)
           else .ok (.snapshot ⟨ct, root, none⟩))
  | some (1, l) =>
    (match readU16le l with
     | none => .error .eof
     | some (namelen, l) =>
       match readExact namelen l with
       | none => .error .eof
       | some (name, l) =>
         match FSMetadata.load l with
         | none => .error .eof
         | some (meta, l) =>
           match readU32le l with
           | none => .error .eof
           | some (n, l) =>
             match loadIds n l with
             | none => .error .eof
             | some (children, _) => .ok (.tree ⟨name, meta, children⟩))
  | some (2, l) =>
    (match readU16le l with
     | none => .error .eof
     | some (namelen, l) =>
       match readExact namelen l with
       | none => .error .eof
       | some (name, l) =>
         match FSMetadata.load l with
         | none => .error .eof
         | some (meta, l) =>
           match readU32le l with
           | none => .error .eof
           | some (tgtlen, l) =>
             match readExact tgtlen l with
             | none => .error .eof
             | some (tgt, _) => .ok (.symlink ⟨name, meta, tgt⟩))
  | some (3, l) =>
    (match readU16le l with
     | none => .error .eof
     | some (namelen, l) =>
       match readExact namelen l with
       | none => .error .eof
       | some (name, l) =>
         match FSMetadata.load l with
         | none => .error .eof
         | some (meta, l) =>
           match readU32le l with
           | none => .error .eof
           | some (n, l) =>
             match loadIds n l with
             | none => .error .eof
             | some (body, _) => .ok (.file ⟨name, meta, body⟩))
  | some (_, _) => .error .invalidData

/-- A sample FS metadata record used in concrete evaluations. -/
def exFSMeta : FSMetadata := ⟨12345, 23456, 12, 4, 493⟩

/-- A symlink whose target differs from its name: name = [0x61], target = [0x62]. -/
def exSymlink : MetaObject := .symlink ⟨[97], exFSMeta, [98]⟩

/-! ## Chunker (src/chunking.rs)

The byte source is an iterator of `Result of u8 | E` items, modelled as a
list of `Except ε Nat`.  The `Chunks` iterator state carries the current
chunk buffer `data`, the rolling sum `sum` (u32 in the source; bounded by
1 + 255 * 8196 here, so plain Nat is exact), and the remaining input.
The subtraction `self.sum -= old` cannot underflow because `old` is a byte
still counted in `sum`; Nat subtraction is therefore exact as well. -/

structure ChunksState (ε : Type) where
  data : List Nat
  sum : Nat
  iter : List (Except ε Nat)
deriving Repr, DecidableEq

/-- Chunkable::chunks: initial state has empty buffer and sum = 1. -/
def chunks {ε : Type} (iter : List (Except ε Nat)) : ChunksState ε :=
  ⟨[], 1, iter⟩

/-- The loop body of `Chunks::next`, recursing over the remaining input:
on an error item the error is returned (buffer retained); otherwise the byte
is pushed, the rolling sum updated (window 8196), and the buffer emitted
when the sum is divisible by 4096 (sum resets to 1).  At end of input a
non-empty buffer is emitted as a final short chunk. -/
def Chunks.nextGo {ε : Type} : List Nat → Nat → List (Except ε Nat) →
    Option (Except ε (List Nat)) × ChunksState ε
  | data, sum, [] =>
    if data.length ≠ 0 then (some (.ok data), ⟨[], sum, []⟩)
    else (none, ⟨data, sum, []⟩)
  | data, sum, .error e :: rest => (some (.error e), ⟨data, sum, rest⟩)
  | data, sum, .ok b :: rest =>
    let data1 := data ++ [b]
    let sum1 := sum + b
    let len := data1.length
    let sum2 :=
      if 8196 ≤ len then
        match data1.get? (len - 8196) with
        | some old => sum1 - old
        | none => sum1
      else sum1
    if sum2 % 4096 = 0 then (some (.ok data1), ⟨[], 1, rest⟩)
    else Chunks.nextGo data1 sum2 rest

/-- Chunks::next on the iterator state. -/
def Chunks.next {ε : Type} (st : ChunksState ε) :
    Option (Except ε (List Nat)) × ChunksState ε :=
  Chunks.nextGo st.data st.sum st.iter

/-- Poll the chunk iterator up to `fuel` times, collecting the items it
yields until it returns None. -/
def chunkList {ε : Type} : Nat → ChunksState ε → List (Except ε (List Nat))
  | 0, _ => []
  | fuel + 1, st =>
    match Chunks.next st with
    | (none, _) => []
    | (some r, st') => r :: chunkList fuel st'

/-- 5000 Ok(1) items, the input of spec scenario S1. -/
def onesInput (m : Nat) : List (Except Unit Nat) :=
  List.replicate m (Except.ok 1)

/-! ## Keystore and key envelopes (src/keys.rs)

The AEAD primitive (ChaCha20-Poly1305 from the `ring` crate) is external to
this repository and is modelled from the spec at its interface: sealing XORs
the plaintext with a keystream determined only by key and nonce, and appends
a 16-byte tag; the ciphertext layout is `ciphertext || tag` with the nonce
handled by the caller.  The model keystream/tag functions below are
executable stand-ins with exactly those structural properties. -/

/-- AEAD_KEY_LENGTH: ChaCha20-Poly1305 keys are 32 bytes. -/
def AEAD_KEY_LENGTH : Nat := 32

/-- KEY_FMT_VERSION: serialized key envelopes carry version 1. -/
def KEY_FMT_VERSION : Nat := 1

/-- ChaCha20-Poly1305 tag length: 16 bytes. -/
def AEAD_TAG_LEN : Nat := 16

/-- The error taxonomy of src/keys.rs. -/
inductive KeyError where
  | passwordError
  | invalidKeystore
  | cryptoError
  | notFound
  | wrongFormat
  | ioError
  | unsupported
deriving Repr, DecidableEq

/-- Modelled from the spec: the ChaCha20 keystream byte at position `i` for a
given key and nonce.  Only its dependence on (key, nonce, i) alone matters to
the claims; the concrete mixing is an executable stand-in. -/
def keystream (key nonce : List Nat) (i : Nat) : Nat :=
  (key.foldl (fun a b => (a * 31 + b) % 65536) 17 +
   nonce.foldl (fun a b => (a * 37 + b) % 65536) 23 + i * 41) % 256

/-- XOR a byte string with the keystream starting at stream position `i`. -/
def xorStreamFrom (key nonce : List Nat) : Nat → List Nat → List Nat
  | _, [] => []
  | i, b :: bs =>
      (b ^^^ keystream key nonce i) :: xorStreamFrom key nonce (i + 1) bs

/-- XOR a byte string with the keystream from position 0 (one ChaCha20
encryption or decryption pass). -/
def xorStream (key nonce data : List Nat) : List Nat :=
  xorStreamFrom key nonce 0 data

/-- Modelled from the spec: the Poly1305 authentication tag, 16 bytes
computed over key, nonce, associated data and ciphertext. -/
def polyTag (key nonce ad ct : List Nat) : List Nat :=
  natDigits AEAD_TAG_LEN
    ((key ++ nonce ++ ad ++ ct).foldl
      (fun a b => (a * 131 + b + 3) % 2 ^ 128) 11)

/-- Modelled from the spec: ring's `seal_in_place` for ChaCha20-Poly1305.
The caller passes a buffer whose last 16 bytes are spare (the source resizes
by `tag_len` first); the plaintext portion is XORed with the keystream and
the 16-byte tag is appended after the ciphertext. -/
def seal_in_place (key nonce ad buf : List Nat) : List Nat :=
  let ct := xorStream key nonce (buf.take (buf.length - AEAD_TAG_LEN))
  ct ++ polyTag key nonce ad ct

/-- The local keystore, reduced to the state the envelope code consumes: the
derived master key (`get_master_key` prompts, derives via PBKDF2 and verifies
against mkey_hash; all of that is I/O outside this model and yields this
32-byte value). -/
structure Keystore where
  master : List Nat
deriving Repr, DecidableEq

/-- Keystore::encrypt_master: resize the buffer by tag_len and seal with the
master key, empty associated data and the caller's nonce. -/
def Keystore.encrypt_master (ks : Keystore) (data nonce : List Nat) :
    List Nat :=
  seal_in_place ks.master nonce [] (data ++ List.replicate AEAD_TAG_LEN 0)

/-- Keystore::decrypt_master, faithful to the source (keys.rs lines 477-498):
despite its name and its doc comment, the body is identical to
encrypt_master -- it builds a SealingKey and calls seal_in_place on the
input, applying the ChaCha20 stream and appending a fresh tag, rather than
verifying and stripping a tag with open_in_place.  Because the stream
depends only on (key, nonce), applying it to a ciphertext produced under the
same key and nonce recovers the plaintext in the leading bytes. -/
def Keystore.decrypt_master (ks : Keystore) (data nonce : List Nat) :
    List Nat :=
  seal_in_place ks.master nonce [] (data ++ List.replicate AEAD_TAG_LEN 0)

/-- A per-remote data key: 32 key bytes and the remote name (the UTF-8 bytes
of the Rust String). -/
structure DataKey where
  data : List Nat
  rname : List Nat
deriving Repr, DecidableEq

/-- UTF-8 continuation byte: 0x80..0xBF. -/
def isCont (c : Nat) : Bool := decide (0x80 ≤ c ∧ c ≤ 0xBF)

/-- Validity of a byte string as UTF-8 (`String::from_utf8` succeeds),
following the RFC 3629 byte-range table. -/
def isValidUtf8 : List Nat → Bool
  | [] => true
  | b :: rest =>
    if b ≤ 0x7F then isValidUtf8 rest
    else
      match rest with
      | [] => false
      | c1 :: r1 =>
        if 0xC2 ≤ b ∧ b ≤ 0xDF then isCont c1 && isValidUtf8 r1
        else
          match r1 with
          | [] => false
          | c2 :: r2 =>
            if b = 0xE0 then
              decide (0xA0 ≤ c1 ∧ c1 ≤ 0xBF) && isCont c2 && isValidUtf8 r2
            else if b = 0xED then
              decide (0x80 ≤ c1 ∧ c1 ≤ 0x9F) && isCont c2 && isValidUtf8 r2
            else if 0xE1 ≤ b ∧ b ≤ 0xEF then
              isCont c1 && isCont c2 && isValidUtf8 r2
            else
              match r2 with
              | [] => false
              | c3 :: r3 =>
                if b = 0xF0 then
                  decide (0x90 ≤ c1 ∧ c1 ≤ 0xBF) && isCont c2 && isCont c3 &&
                    isValidUtf8 r3
                else if 0xF1 ≤ b ∧ b ≤ 0xF3 then
                  isCont c1 && isCont c2 && isCont c3 && isValidUtf8 r3
                else if b = 0xF4 then
                  decide (0x80 ≤ c1 ∧ c1 ≤ 0x8F) && isCont c2 && isCont c3 &&
                    isValidUtf8 r3
                else false

/-- DataKey::write: the byte stream written for a key envelope, with the
nonce from gen_nonce passed explicitly (it is 6 MAC bytes plus 6 random
bytes in the source).  Layout: u16 BE version, 12-byte nonce, then the
master-sealed encoding of `u16 BE name_len || name || key`. -/
def DataKey.write (dk : DataKey) (ks : Keystore) (nonce : List Nat) :
    List Nat :=
  let vkey := u16be dk.rname.length ++ dk.rname ++ dk.data
  u16be KEY_FMT_VERSION ++ nonce ++ ks.encrypt_master vkey nonce

/-- DataKey::read: parse a key envelope.  Faithful to the source, including
the two `read_exact` calls whose Results are dropped (modelled by zero
padding on short input, which well-formed envelopes never hit) and the
decrypt step that goes through `Keystore.decrypt_master`. -/
def DataKey.read (ks : Keystore) (s : List Nat) : Except KeyError DataKey :=
  match readU16be s with
  | none => .error .ioError
  | some (vsn, s) =>
    if KEY_FMT_VERSION < vsn then .error .wrongFormat
    else
      let nonce := s.take 12 ++ List.replicate (12 - s.length) 0
      let crypted := s.drop 12
      let data := ks.decrypt_master crypted nonce
      match readU16be data with
      | none => .error .ioError
      | some (l, rest) =>
        let buf := rest.take l ++ List.replicate (l - rest.length) 0
        if isValidUtf8 buf then
          match readExact AEAD_KEY_LENGTH (rest.drop l) with
          | none => .error .ioError
          | some (key, _) => .ok ⟨key, buf⟩
        else .error .invalidKeystore

/-! ## Backend model and History engine (src/remote/mod.rs, src/history.rs)

The History engine consumes the Backend trait (read_meta, write_meta,
read_block, get_head, set_head).  The backend is modelled at that trait
boundary: a metadata map from tags to decoded objects (the encryption
adapter is invisible above the trait), a block map, the per-node head tag,
and a clock for SystemTime::now. -/

/-- remote::BackendError, collapsed to the one constructor the
history-level claims distinguish (all backend failures are errors, not
booleans). -/
inductive BackendErr where
  | backendError
deriving Repr, DecidableEq

/-- history::Error. The fuelExhausted constructor is an embedding artifact:
the source recursions are bounded here by an explicit fuel parameter; all
theorems below supply sufficient fuel. -/
inductive HErr where
  | invalidArgument
  | integrityError
  | noValidSnapshot
  | ioError
  | backend (e : BackendErr)
  | fuelExhausted
deriving Repr, DecidableEq

/-- The object store as seen through the Backend trait. -/
structure Backend where
  meta : List (IdentityTag × MetaObject)
  blocks : List (IdentityTag × List Nat)
  head : Option IdentityTag
  now : Nat
deriving Repr, DecidableEq

/-- Look up a stored metadata object by tag. -/
def Backend.lookupMeta (b : Backend) (t : IdentityTag) : Option MetaObject :=
  (b.meta.find? (fun p => p.1 == t)).map (fun p => p.2)

/-- MetadataStore::read_meta: reading a missing object is a backend error
(the sftp open of the object file fails). -/
def Backend.read_meta (b : Backend) (t : IdentityTag) :
    Except BackendErr MetaObject :=
  match b.lookupMeta t with
  | some o => .ok o
  | none => .error .backendError

/-- BlockStore::read_block: reading a missing block is a backend error. -/
def Backend.read_block (b : Backend) (t : IdentityTag) :
    Except BackendErr (List Nat) :=
  match (b.blocks.find? (fun p => p.1 == t)).map (fun p => p.2) with
  | some d => .ok d
  | none => .error .backendError

/-- MetadataStore::write_meta: encode the object, compute its tag, and store
it unless the tag already exists (content-addressed existence
short-circuit). -/
def Backend.write_meta (b : Backend) (o : MetaObject) :
    IdentityTag × Backend :=
  let tag := o.ident
  if (b.lookupMeta tag).isSome then (tag, b)
  else (tag, { b with meta := (tag, o) :: b.meta })

/-- MetadataStore::get_head: a missing head file is None; otherwise the
referenced object is read. -/
def Backend.get_head (b : Backend) : Except BackendErr (Option MetaObject) :=
  match b.head with
  | none => .ok none
  | some t => (b.read_meta t).map some

/-- History::get_snapshot. -/
def get_snapshot (b : Backend) : Except HErr (Option Snapshot) :=
  match b.get_head with
  | .error e => .error (.backend e)
  | .ok none => .ok none
  | .ok (some (.snapshot s)) => .ok (some s)
  | .ok (some _) => .error .noValidSnapshot

/-- A component of a canonicalized path: the root directory or a normal
component with opaque name bytes.  CurDir and ParentDir components panic in
the source ("retrieved path is not canonical") and Windows prefixes are
unimplemented, so canonical paths contain only these two. -/
inductive PathComp where
  | rootDir
  | normal (name : List Nat)
deriving Repr, DecidableEq

/-- Read each child tag together with its object (the collected map in
get_path and get_id); the first backend error aborts the collection. -/
def readChildren (b : Backend) : List IdentityTag →
    Except BackendErr (List (IdentityTag × MetaObject))
  | [] => .ok []
  | t :: ts =>
    match b.read_meta t with
    | .error e => .error e
    | .ok o =>
      match readChildren b ts with
      | .error e => .error e
      | .ok rest => .ok ((t, o) :: rest)

/-- The descent loop of History::get_path: `current` starts at the
snapshot's root tag; every iteration reads the current object and requires
it to be a Tree (any non-Tree object at an intermediate position is an
integrity error); a RootDir component is skipped; a normal component selects
the first child whose name matches, or returns None when no child matches.
After the loop the object at `current` is read and returned. -/
def get_path_go (b : Backend) : IdentityTag → List PathComp →
    Except HErr (Option MetaObject)
  | current, [] =>
    match b.read_meta current with
    | .error e => .error (.backend e)
    | .ok o => .ok (some o)
  | current, comp :: rest =>
    match b.read_meta current with
    | .error e => .error (.backend e)
    | .ok (.tree t) =>
      (match comp with
       | .rootDir => get_path_go b current rest
       | .normal cmp =>
         match readChildren b t.children with
         | .error e => .error (.backend e)
         | .ok children =>
           match children.find? (fun c => c.2.name == some cmp) with
           | some itm => get_path_go b itm.1 rest
           | none => .ok none)
    | .ok _ => .error .integrityError

/-- History::get_path: resolve a path in the latest snapshot; no snapshot
means Ok(None). -/
def get_path (b : Backend) (path : List PathComp) :
    Except HErr (Option MetaObject) :=
  match get_snapshot b with
  | .error e => .error e
  | .ok none => .ok none
  | .ok (some s) => get_path_go b s.root path

/-- The outcome of the inner for-loop of ContextWrapper::get_id over one
tree's children: the loop either returns Ok(Some(tag)) (found), breaks with
`node` updated to a subtree (descend), returns an integrity error, or runs
out of children without a match (missing, `found` stays false). -/
inductive ChildScan where
  | found (tag : IdentityTag)
  | descend (t : TreeObject)
  | missing
  | err (e : HErr)
deriving Repr, DecidableEq

/-- The inner loop of get_id over a tree's children: a Tree whose name
matches is descended into; a File whose name matches returns its tag (a
non-matching File is skipped); the Symlink match arm carries a name-match
guard, so a Symlink whose name does not match falls through to the
catch-all arm and is an integrity error, as is any Snapshot child. -/
def get_id_scan (part : List Nat) :
    List (IdentityTag × MetaObject) → ChildScan
  | [] => .missing
  | (ident, c) :: cs =>
    match c with
    | .tree t =>
      if t.name == part then .descend t
      else get_id_scan part cs
    | .file f =>
      if f.name == part then .found ident
      else get_id_scan part cs
    | .symlink l =>
      if l.name == part then .found ident
      else .err .integrityError
    | .snapshot _ => .err .integrityError

/-- The outer loop of ContextWrapper::get_id over the path components;
exhausting the components (`found` trees all the way down, or an empty
path) returns Ok(None). -/
def get_id_go (b : Backend) : List (List Nat) → TreeObject →
    Except HErr (Option IdentityTag)
  | [], _ => .ok none
  | part :: rest, node =>
    match readChildren b node.children with
    | .error e => .error (.backend e)
    | .ok children =>
      match get_id_scan part children with
      | .found ident => .ok (some ident)
      | .descend t => get_id_go b rest t
      | .missing => .ok none
      | .err e => .error e

/-- ContextWrapper::get_id on a wrapped tree object. -/
def get_id (b : Backend) (tree0 : TreeObject) (pth : List (List Nat)) :
    Except HErr (Option IdentityTag) :=
  get_id_go b pth tree0

/-- ContextWrapper::get: read the object found by get_id, if any. -/
def ContextWrapper.get (b : Backend) (tree0 : TreeObject)
    (pth : List (List Nat)) : Except HErr (Option MetaObject) :=
  match get_id b tree0 pth with
  | .error e => .error e
  | .ok none => .ok none
  | .ok (some ident) =>
    match b.read_meta ident with
    | .error e => .error (.backend e)
    | .ok o => .ok (some o)

/-- IntegrityTestMode, ordered Quick < Normal < Slow < Exhaustive. -/
inductive IntegrityTestMode where
  | quick
  | normal
  | slow
  | exhaustive
deriving Repr, DecidableEq

/-- The derived Ord rank of a test mode (declaration order). -/
def IntegrityTestMode.rank : IntegrityTestMode → Nat
  | .quick => 0
  | .normal => 1
  | .slow => 2
  | .exhaustive => 3

/-- check_hashes: only Exhaustive verifies block hashes. -/
def IntegrityTestMode.check_hashes (m : IntegrityTestMode) : Bool :=
  m == .exhaustive

/-- check_blocks: Slow and Exhaustive read blocks back. -/
def IntegrityTestMode.check_blocks (m : IntegrityTestMode) : Bool :=
  decide (IntegrityTestMode.rank .slow ≤ m.rank)

/-- History::check_block: skip in fast modes; read the block (errors
propagate); under Exhaustive compare the SHA-256 of the data to the tag. -/
def check_block (b : Backend) (mode : IntegrityTestMode)
    (tag : IdentityTag) : Except HErr Bool :=
  if !mode.check_blocks then .ok true
  else
    match b.read_block tag with
    | .error e => .error (.backend e)
    | .ok data =>
      if mode.check_hashes then
        if sha256model data ≠ tag then .ok false else .ok true
      else .ok true

/-- The block loop of History::check_file: a false verdict short-circuits,
an error aborts. -/
def check_blocks_list (b : Backend) (mode : IntegrityTestMode) :
    List IdentityTag → Except HErr Bool
  | [] => .ok true
  | t :: ts =>
    match check_block b mode t with
    | .error e => .error e
    | .ok false => .ok false
    | .ok true => check_blocks_list b mode ts

mutual

/-- History::check_file: read the object (missing objects are backend
errors); Files check their blocks, Symlinks pass, Trees recurse through
check_tree, and any other object kind (a Snapshot in a child position) is
the boolean verdict false. -/
def check_file (b : Backend) (mode : IntegrityTestMode) :
    Nat → IdentityTag → Except HErr Bool
  | 0, _ => .error .fuelExhausted
  | fuel + 1, tag =>
    match b.read_meta tag with
    | .error e => .error (.backend e)
    | .ok (.file f) => check_blocks_list b mode f.body
    | .ok (.symlink _) => .ok true
    | .ok (.tree _) => check_tree b mode fuel tag
    | .ok _ => .ok false
termination_by fuel tag => (fuel, 0)

/-- History::check_tree: read the object; a non-Tree is the verdict false;
otherwise check each child, short-circuiting on the first false. -/
def check_tree (b : Backend) (mode : IntegrityTestMode) :
    Nat → IdentityTag → Except HErr Bool
  | 0, _ => .error .fuelExhausted
  | fuel + 1, tag =>
    match b.read_meta tag with
    | .error e => .error (.backend e)
    | .ok (.tree t) => check_children b mode fuel t.children
    | .ok _ => .ok false
termination_by fuel tag => (fuel, 0)

/-- The child loop of check_tree. -/
def check_children (b : Backend) (mode : IntegrityTestMode) :
    Nat → List IdentityTag → Except HErr Bool
  | _, [] => .ok true
  | fuel, c :: cs =>
    match check_file b mode fuel c with
    | .error e => .error e
    | .ok false => .ok false
    | .ok true => check_children b mode fuel cs
termination_by fuel l => (fuel, l.length + 1)

end

/-- The snapshot-chain loop of History::check: each chain element must be a
Snapshot (anything else is the verdict false); the parent is read first
(missing parents are backend errors) and then the root tree is checked,
short-circuiting on a false verdict. -/
def check_chain (b : Backend) (mode : IntegrityTestMode) :
    Nat → Option MetaObject → Except HErr Bool
  | 0, _ => .error .fuelExhausted
  | _, none => .ok true
  | fuel + 1, some root =>
    match root with
    | .snapshot snap =>
      (match (match snap.parent with
              | some p => (b.read_meta p).map some
              | none => .ok none) with
       | .error e => .error (.backend e)
       | .ok parent? =>
         match check_tree b mode fuel snap.root with
         | .error e => .error e
         | .ok false => .ok false
         | .ok true => check_chain b mode fuel parent?)
    | _ => .ok false

/-- History::check: read the head (errors propagate) and walk the chain. -/
def check (b : Backend) (mode : IntegrityTestMode) (fuel : Nat) :
    Except HErr Bool :=
  match b.get_head with
  | .error e => .error (.backend e)
  | .ok h => check_chain b mode fuel h

/-! ### Incremental tree update (History::update_tree, build_tree_skeleton)

Absolute canonical paths are represented by their list of normal components
(so `/` is `[]` and `/a/b` is `[[97], [98]]`); Path::starts_with is
componentwise prefix and Path::parent drops the last component. -/

/-- Absolute canonical paths as component lists. -/
abbrev AbsPath := List (List Nat)

/-- Path::components of an absolute path: RootDir followed by the normal
components. -/
def pathComps (p : AbsPath) : List PathComp :=
  .rootDir :: p.map .normal

/-- Path::parent: None for the root, otherwise the path without its last
component. -/
def pathParent (p : AbsPath) : Option AbsPath :=
  match p with
  | [] => none
  | _ => some p.dropLast

/-- Path::file_name, with the source's None arm mapped to the empty name
(history.rs lines 458-460). -/
def pathFileName (p : AbsPath) : List Nat :=
  match p.getLast? with
  | none => []
  | some n => n

/-- FSMetadata::default: current time, uid 0, gid 0, mode 0o755. -/
def FSMetadata.default0 (now : Nat) : FSMetadata :=
  ⟨now, now, 0, 0, 493⟩

mutual

/-- History::update_tree: an exact match in the update set overrides
everything; otherwise look the path up in the current snapshot; if it did
not exist, build a skeleton tree; if it did and some update lies below this
path, rebuild the tree with recursively updated children (a non-Tree here
is an integrity error); if no update lies below, reuse the old object's
identity unchanged. -/
def update_tree : Nat → Backend → AbsPath → List (AbsPath × IdentityTag) →
    Except HErr (IdentityTag × Backend)
  | 0, _, _, _ => .error .fuelExhausted
  | fuel + 1, b, root, new_vals =>
    match new_vals.find? (fun x => x.1 == root) with
    | some r => .ok (r.2, b)
    | none =>
      match get_path b (pathComps root) with
      | .error e => .error e
      | .ok none => build_tree_skeleton fuel b root new_vals
      | .ok (some old_version) =>
        if new_vals.any (fun x => root.isPrefixOf x.1) then
          match old_version with
          | .tree t =>
            match update_children fuel b root new_vals t.children with
            | .error e => .error e
            | .ok (new_children, b') =>
              .ok (b'.write_meta (.tree { t with children := new_children }))
          | _ => .error .integrityError
        else .ok (old_version.ident, b)
termination_by fuel b root nv => (fuel, 0)

/-- The child loop of update_tree's rebuild branch: read each child, take
its name (a Snapshot child has none and is an integrity error), recurse on
root/name, and collect the updated child tags in order. -/
def update_children : Nat → Backend → AbsPath →
    List (AbsPath × IdentityTag) → List IdentityTag →
    Except HErr (List IdentityTag × Backend)
  | _, b, _, _, [] => .ok ([], b)
  | fuel, b, root, new_vals, child :: cs =>
    match b.read_meta child with
    | .error e => .error (.backend e)
    | .ok obj =>
      match obj.name with
      | none => .error .integrityError
      | some name =>
        match update_tree fuel b (root ++ [name]) new_vals with
        | .error e => .error e
        | .ok (new_id, b') =>
          match update_children fuel b' root new_vals cs with
          | .error e => .error e
          | .ok (rest, b'') => .ok (new_id :: rest, b'')
termination_by fuel b root nv l => (fuel, l.length + 1)

/-- History::build_tree_skeleton: create the intermediary trees for updates
rooted below `root` and write a tree with default FS metadata. -/
def build_tree_skeleton : Nat → Backend → AbsPath →
    List (AbsPath × IdentityTag) → Except HErr (IdentityTag × Backend)
  | 0, _, _, _ => .error .fuelExhausted
  | fuel + 1, b, root, objects =>
    match skeleton_children fuel b root objects
        (objects.filter (fun o => root.isPrefixOf o.1)) with
    | .error e => .error e
    | .ok (children, b') =>
      let name := pathFileName root
      .ok (b'.write_meta (.tree ⟨name, FSMetadata.default0 b'.now, children⟩))
termination_by fuel b root objects => (fuel, 0)

/-- The child loop of build_tree_skeleton over the updates rooted below
`root`: a direct child contributes its tag; a deeper path recurses into the
next component.  The source unwraps `relative.iter().next()` and panics on
an empty relative path; that case (modelled as an integrity error) is
unreachable through update_paths, which prunes descendant paths. -/
def skeleton_children : Nat → Backend → AbsPath →
    List (AbsPath × IdentityTag) → List (AbsPath × IdentityTag) →
    Except HErr (List IdentityTag × Backend)
  | _, b, _, _, [] => .ok ([], b)
  | fuel, b, root, objects, child :: rest =>
    match (if pathParent child.1 == some root then
             (.ok (child.2, b) : Except HErr (IdentityTag × Backend))
           else
             match (child.1.drop root.length).head? with
             | some part => build_tree_skeleton fuel b (root ++ [part]) objects
             | none => .error .integrityError) with
    | .error e => .error e
    | .ok (cid, b') =>
      match skeleton_children fuel b' root objects rest with
      | .error e => .error e
      | .ok (cids, b'') => .ok (cid :: cids, b'')
termination_by fuel b root objects l => (fuel, l.length + 1)

end

/-! ## SFTP backend filename handling (src/remote/ssh.rs, src/util.rs) -/

/-- TAG_LENGTH as defined in ssh.rs: 32 (the byte length of a tag). -/
def TAG_LENGTH : Nat := 32

/-- char::is_digit(16): ASCII 0-9, a-f and A-F (char codes). -/
def is_digit16 (c : Nat) : Bool :=
  decide ((48 ≤ c ∧ c ≤ 57) ∨ (97 ≤ c ∧ c ≤ 102) ∨ (65 ≤ c ∧ c ≤ 70))

/-- The numeric value of a hex digit character. -/
def hexDigitVal (c : Nat) : Nat :=
  if 48 ≤ c ∧ c ≤ 57 then c - 48
  else if 97 ≤ c ∧ c ≤ 102 then c - 87
  else c - 55

/-- The pair decoding of list_meta: `chars.chunks(2)` with
`u8::from_str_radix(_, 16)` on each chunk decodes consecutive pairs of hex
characters (a trailing single character parses as its own value). -/
def decodeHexPairs : List Nat → List Nat
  | c1 :: c2 :: rest => (hexDigitVal c1 * 16 + hexDigitVal c2) :: decodeHexPairs rest
  | [c] => [hexDigitVal c]
  | [] => []

/-- The filename filter of MetadataStore::list_meta (ssh.rs lines 213-227):
a file in a prefix directory contributes a tag only if every character is a
hex digit and the character count equals TAG_LENGTH; the accepted name's
pairs are decoded into a zero-initialized 32-byte tag buffer. -/
def parseTagFilename (nm : List Nat) : Option IdentityTag :=
  if nm.all is_digit16 ∧ nm.length = TAG_LENGTH then
    let d := decodeHexPairs nm
    some (d ++ List.replicate (TAG_LENGTH - d.length) 0)
  else none

/-- list_meta restricted to one metadata prefix directory: every regular
file name is run through the filter above and accepted tags are collected. -/
def list_meta_dir (files : List (List Nat)) : List IdentityTag :=
  files.filterMap parseTagFilename

/-- A single lowercase hex character (util.rs `format` with 02x). -/
def hexChar (d : Nat) : Nat := if d < 10 then 48 + d else 87 + d

/-- ToHex::to_hex: each byte becomes two lowercase hex characters; this is
the filename under which read_meta/write_meta store an object. -/
def to_hex (bytes : List Nat) : List Nat :=
  bytes.flatMap (fun b => [hexChar (b / 16), hexChar (b % 16)])

/-! ## Lock discipline of backend creation (src/remote/ssh.rs)

RemoteBackend::create for the SFTP backend runs, after connecting and
checking the root directory:

    backend.lock()?;
    backend.initialize()?;

`lock()` returns a `BackendLock` guard whose Drop impl calls `unlock()`
(which unlinks bkp.lock).  The guard returned by `backend.lock()?` is not
bound to a variable, so it is a temporary that Rust drops at the end of
that statement -- before `initialize()` is entered.  The trace model below
records that order of events. -/

/-- Events of RemoteBackend::create, in program order. -/
inductive CreateEv where
  | lockAcquire
  | lockRelease
  | mkdirMetadata
  | mkdirMetakeys
  | mkdirBlocks
  | mkdirHeads
  | newLocalDataKey
  | writeDatakey
  | fetchDatakey
  | storeLocalDataKey
  | writeMetakeyEnv
deriving Repr, DecidableEq

/-- Writes to shared (remote) state performed by initialize(): the directory
skeleton, the datakey upload and the metadata-key envelope upload.
new_data_key and store_data_key write only the local keystore and
fetchDatakey is a read. -/
def CreateEv.sharedWrite : CreateEv → Bool
  | .mkdirMetadata => true
  | .mkdirMetakeys => true
  | .mkdirBlocks => true
  | .mkdirHeads => true
  | .writeDatakey => true
  | .writeMetakeyEnv => true
  | _ => false

/-- The event trace of Backend::initialize, conditional on whether the
skeleton already exists, whether the local keystore already has the
destination's data key, and whether the remote already has this node's
metadata-key envelope (ssh.rs lines 104-144). -/
def initializeTrace (needSkeleton haveLocalDataKey haveRemoteMetaKey : Bool) :
    List CreateEv :=
  (if needSkeleton then
    [.mkdirMetadata, .mkdirMetakeys, .mkdirBlocks, .mkdirHeads,
     .newLocalDataKey, .writeDatakey]
   else []) ++
  (if haveLocalDataKey then [] else [.fetchDatakey, .storeLocalDataKey]) ++
  (if haveRemoteMetaKey then [] else [.writeMetakeyEnv])

/-- The event trace of RemoteBackend::create from the lock statement on
(ssh.rs lines 450-453): the BackendLock temporary produced by
`backend.lock()?` is dropped at the end of its statement, releasing the
lock, and only then does initialize() run. -/
def createTrace (needSkeleton haveLocalDataKey haveRemoteMetaKey : Bool) :
    List CreateEv :=
  [.lockAcquire, .lockRelease] ++
    initializeTrace needSkeleton haveLocalDataKey haveRemoteMetaKey

/-- Whether the lock is held just before position `i` of a trace: more
acquisitions than releases among the first `i` events. -/
def lockHeldAt (tr : List CreateEv) (i : Nat) : Bool :=
  decide ((tr.take i).count .lockRelease < (tr.take i).count .lockAcquire)

/-- The property claimed of backend creation: every shared-state write of
the initialization protocol happens while the lock is held. -/
def initLockedThroughout (tr : List CreateEv) : Bool :=
  tr.enum.all (fun p => !p.2.sharedWrite || lockHeldAt tr p.1)

/-! ## Concrete stores used in claim instances -/

/-- A store whose root tree has a single Snapshot child: the head snapshot
is at tag [10], its root tree at [20] has the one child [30], and [30]
resolves to a Snapshot. -/
def exB4 : Backend :=
  ⟨[([10], .snapshot ⟨0, [20], none⟩),
    ([20], .tree ⟨[], exFSMeta, [[30]]⟩),
    ([30], .snapshot ⟨1, [20], none⟩)], [], some [10], 0⟩

/-- The root tree of exB4. -/
def exRootTree4 : TreeObject := ⟨[], exFSMeta, [[30]]⟩

/-- A store for get_id: the wrapped tree's first child is a Symlink named
"b" ([98]) and its second child a Tree named "a" ([97]). -/
def exB10 : Backend :=
  ⟨[([2], .symlink ⟨[98], exFSMeta, [99]⟩),
    ([3], .tree ⟨[97], exFSMeta, []⟩)], [], none, 0⟩

/-- The wrapped tree of exB10. -/
def exTree10 : TreeObject := ⟨[], exFSMeta, [[2], [3]]⟩

/-- A store for get_id whose tree has a single File child named "a". -/
def exB10b : Backend := ⟨[([4], .file ⟨[97], exFSMeta, []⟩)], [], none, 0⟩

/-- The wrapped tree of exB10b. -/
def exTree10b : TreeObject := ⟨[], exFSMeta, [[4]]⟩

/-- The empty root tree of the C7 witness store. -/
def exRt7 : TreeObject := ⟨[], exFSMeta, []⟩

/-- Its content-addressed tag. -/
def exRootTag7 : IdentityTag := (MetaObject.tree exRt7).ident

/-- The head snapshot of the C7 witness store. -/
def exSnap7 : Snapshot := ⟨0, exRootTag7, none⟩

/-- Its content-addressed tag. -/
def exSnapTag7 : IdentityTag := (MetaObject.snapshot exSnap7).ident

/-- A consistent content-addressed store holding one snapshot and its
empty root tree. -/
def exB7 : Backend :=
  ⟨[(exSnapTag7, .snapshot exSnap7), (exRootTag7, .tree exRt7)], [],
   some exSnapTag7, 0⟩

/-- An empty store (for the missing-object error case of check_file). -/
def exB8a : Backend := ⟨[], [], none, 0⟩

/-- A store with a tree at [1] whose first child [2] is a Snapshot and whose
second child [3] is absent from the store entirely. -/
def exB8b : Backend :=
  ⟨[([1], .tree ⟨[], exFSMeta, [[2], [3]]⟩),
    ([2], .snapshot ⟨0, [9], none⟩)], [], none, 0⟩

/-- A store whose head snapshot names a parent tag [4] that is absent. -/
def exB8c : Backend :=
  ⟨[([1], .snapshot ⟨0, [5], some [4]⟩)], [], some [1], 0⟩

/-! ## Proofs -/

/-- One Ok-byte step of the loop while the buffer stays below the 8196-byte
window: the rolling-window subtraction is skipped. -/
lemma nextGo_ok_small {ε : Type} (data : List Nat) (sum b : Nat)
    (rest : List (Except ε Nat)) (h : data.length + 1 < 8196) :
    Chunks.nextGo data sum (.ok b :: rest) =
      if (sum + b) % 4096 = 0 then (some (.ok (data ++ [b])), ⟨[], 1, rest⟩)
      else Chunks.nextGo (data ++ [b]) (sum + b) rest := by
  rw [Chunks.nextGo]
  have hw : ¬ (8196 ≤ (data ++ [b]).length) := by
    simp only [List.length_append, List.length_cons, List.length_nil]
    omega
  simp only [hw, if_false]

/-- Feeding 1-bytes with `sum + m` reaching the divisor: the loop emits a
chunk exactly when the sum hits 4096, i.e. after `4096 - sum` more bytes. -/
lemma nextGo_ones_boundary (m : Nat) : ∀ (data : List Nat) (sum : Nat),
    1 ≤ sum → sum ≤ 4095 → 4096 ≤ sum + m →
    data.length + (4096 - sum) < 8196 →
    Chunks.nextGo data sum (onesInput m) =
      (some (.ok (data ++ List.replicate (4096 - sum) 1)),
       ⟨[], 1, onesInput (m - (4096 - sum))⟩) := by
  induction m with
  | zero => intro data sum h1 h2 h3 _; omega
  | succ m ih =>
    intro data sum h1 h2 h3 h4
    have hstep : onesInput (m + 1) = .ok 1 :: onesInput m := by
      simp [onesInput, List.replicate_succ]
    rw [hstep, nextGo_ok_small data sum 1 (onesInput m) (by omega)]
    by_cases hs : sum = 4095
    · subst hs
      norm_num
    · have hne : ¬ ((sum + 1) % 4096 = 0) := by
        have : sum + 1 < 4096 := by omega
        omega
      rw [if_neg hne]
      rw [ih (data ++ [1]) (sum + 1) (by omega) (by omega) (by omega)
            (by simp only [List.length_append, List.length_cons,
                           List.length_nil]; omega)]
      have harr : data ++ [1] ++ List.replicate (4096 - (sum + 1)) 1 =
          data ++ List.replicate (4096 - sum) 1 := by
        rw [List.append_assoc]
        congr 1
        have h46 : 4096 - sum = (4096 - (sum + 1)) + 1 := by omega
        rw [h46]
        simp [List.replicate_succ]
      have hm : m - (4096 - (sum + 1)) = m + 1 - (4096 - sum) := by omega
      rw [harr, hm]

/-- Feeding 1-bytes that never reach the divisor: at end of input the
non-empty buffer is emitted as one final short chunk. -/
lemma nextGo_ones_flush (m : Nat) : ∀ (data : List Nat) (sum : Nat),
    1 ≤ sum → sum + m < 4096 → data.length + m < 8196 →
    data.length + m ≠ 0 →
    Chunks.nextGo data sum (onesInput m) =
      (some (.ok (data ++ List.replicate m 1)), ⟨[], sum + m, []⟩) := by
  induction m with
  | zero =>
    intro data sum _ _ _ hne
    have hd : data.length ≠ 0 := by omega
    rw [onesInput, List.replicate_zero, Chunks.nextGo, if_pos hd]
    simp
  | succ m ih =>
    intro data sum h1 h2 h3 hne
    have hstep : onesInput (m + 1) = .ok 1 :: onesInput m := by
      simp [onesInput, List.replicate_succ]
    rw [hstep, nextGo_ok_small data sum 1 (onesInput m) (by omega)]
    have hneq : ¬ ((sum + 1) % 4096 = 0) := by
      have : sum + 1 < 4096 := by omega
      omega
    rw [if_neg hneq]
    rw [ih (data ++ [1]) (sum + 1) (by omega) (by omega)
          (by simp only [List.length_append, List.length_cons,
                         List.length_nil]; omega)
          (by simp only [List.length_append, List.length_cons,
                         List.length_nil]; omega)]
    have harr : data ++ [1] ++ List.replicate m 1 =
        data ++ List.replicate (m + 1) 1 := by
      rw [List.append_assoc]
      simp [List.replicate_succ]
    have hsum : sum + 1 + m = sum + (m + 1) := by omega
    rw [harr, hsum]

lemma natDigits_length (k : Nat) : ∀ n, (natDigits k n).length = k := by
  induction k with
  | zero => intro n; rfl
  | succ k ih => intro n; simp [natDigits, ih]

lemma polyTag_length (key nonce ad ct : List Nat) :
    (polyTag key nonce ad ct).length = AEAD_TAG_LEN := by
  simp [polyTag, natDigits_length]

lemma xorStreamFrom_length (key nonce : List Nat) :
    ∀ (i : Nat) (l : List Nat), (xorStreamFrom key nonce i l).length = l.length := by
  intro i l
  induction l generalizing i with
  | nil => rfl
  | cons b bs ih => simp [xorStreamFrom, ih]

lemma xorStreamFrom_append (key nonce : List Nat) (a : List Nat) :
    ∀ (i : Nat) (b : List Nat),
      xorStreamFrom key nonce i (a ++ b) =
        xorStreamFrom key nonce i a ++ xorStreamFrom key nonce (i + a.length) b := by
  induction a with
  | nil => intro i b; simp [xorStreamFrom]
  | cons x xs ih =>
    intro i b
    simp only [List.cons_append, xorStreamFrom, List.append_eq]
    rw [ih]
    have h : i + 1 + xs.length = i + (xs.length + 1) := by omega
    simp [h]

lemma xorStreamFrom_invol (key nonce : List Nat) :
    ∀ (i : Nat) (a : List Nat),
      xorStreamFrom key nonce i (xorStreamFrom key nonce i a) = a := by
  intro i a
  induction a generalizing i with
  | nil => rfl
  | cons x xs ih =>
    simp only [xorStreamFrom, ih]
    congr 1
    rw [Nat.xor_assoc, Nat.xor_self, Nat.xor_zero]

/-- Sealing a plaintext buffer padded with tag_len spare bytes produces the
stream-encrypted plaintext followed by the tag. -/
lemma seal_in_place_spec (key nonce ad pt : List Nat) :
    seal_in_place key nonce ad (pt ++ List.replicate AEAD_TAG_LEN 0) =
      xorStream key nonce pt ++
        polyTag key nonce ad (xorStream key nonce pt) := by
  unfold seal_in_place
  have h : (pt ++ List.replicate AEAD_TAG_LEN 0).take
      ((pt ++ List.replicate AEAD_TAG_LEN 0).length - AEAD_TAG_LEN) = pt := by
    simp
  rw [h]

/-- The accidental round-trip at the heart of DataKey/MetaKey envelopes:
decrypt_master seals a second time instead of opening, but sealing with the
same key and nonce XORs with the same keystream, so the leading bytes of the
result are the original plaintext, followed by 32 bytes of junk (the
re-encrypted first tag and the fresh second tag). -/
lemma decrypt_master_encrypt_master (ks : Keystore) (pt nonce : List Nat) :
    ∃ junk : List Nat,
      ks.decrypt_master (ks.encrypt_master pt nonce) nonce = pt ++ junk ∧
      junk.length = 2 * AEAD_TAG_LEN := by
  unfold Keystore.decrypt_master Keystore.encrypt_master
  rw [seal_in_place_spec, seal_in_place_spec]
  unfold xorStream
  rw [xorStreamFrom_append, xorStreamFrom_invol]
  rw [List.append_assoc]
  exact ⟨_, rfl, by simp [xorStreamFrom_length, polyTag_length, AEAD_TAG_LEN]⟩

lemma take_app_len {α : Type} (a b : List α) : (a ++ b).take a.length = a := by
  simp

lemma drop_app_len {α : Type} (a b : List α) : (a ++ b).drop a.length = b := by
  simp

/-- Claim C2: for every 32-byte key and remote name, writing a key envelope
with DataKey::write under a keystore's master key and then reading those
bytes back with DataKey::read under the same master key succeeds and returns
the same key and name.  (The recovery works even though decrypt_master seals
instead of opening: applying the ChaCha20 stream a second time under the
same key and nonce restores the plaintext prefix, and the cursor reads
ignore the 32 trailing junk bytes.)  Hypotheses: the name is the UTF-8 byte
string of a Rust String shorter than 2^16 bytes, and the generated nonce is
12 bytes, both invariants of the source. -/
theorem C2_datakey_envelope_roundtrip (key name master nonce : List Nat)
    (hkey : key.length = AEAD_KEY_LENGTH) (hname : name.length < 65536)
    (hutf : isValidUtf8 name = true) (hnonce : nonce.length = 12) :
    DataKey.read ⟨master⟩ (DataKey.write ⟨key, name⟩ ⟨master⟩ nonce) =
      .ok ⟨key, name⟩ := by
  obtain ⟨junk, hjunk, hjlen⟩ :=
    decrypt_master_encrypt_master ⟨master⟩
      (u16be name.length ++ name ++ key) nonce
  simp only [DataKey.write]
  have hver : u16be KEY_FMT_VERSION = [0, 1] := rfl
  rw [hver]
  simp only [DataKey.read, List.cons_append, List.nil_append, readU16be]
  have hv1 : ¬ (KEY_FMT_VERSION < 0 * 256 + 1) := by decide
  rw [if_neg hv1]
  have htake : (nonce ++ Keystore.encrypt_master ⟨master⟩
      (u16be name.length ++ name ++ key) nonce).take 12 = nonce := by
    rw [← hnonce]
    exact take_app_len nonce _
  have hdrop : (nonce ++ Keystore.encrypt_master ⟨master⟩
      (u16be name.length ++ name ++ key) nonce).drop 12 =
      Keystore.encrypt_master ⟨master⟩
        (u16be name.length ++ name ++ key) nonce := by
    rw [← hnonce]
    exact drop_app_len nonce _
  have hpad : 12 - (nonce ++ Keystore.encrypt_master ⟨master⟩
      (u16be name.length ++ name ++ key) nonce).length = 0 := by
    simp [List.length_append, hnonce]
  rw [htake, hdrop, hpad]
  simp only [List.replicate_zero, List.append_nil]
  rw [hjunk]
  have hdata : u16be name.length ++ name ++ key ++ junk =
      (name.length / 256 % 256) :: (name.length % 256) ::
        (name ++ (key ++ junk)) := by
    simp [u16be, List.append_assoc]
  rw [hdata]
  simp only [readU16be]
  have hlen : name.length / 256 % 256 * 256 + name.length % 256 =
      name.length := by omega
  rw [hlen]
  have hbuf : (name ++ (key ++ junk)).take name.length = name :=
    take_app_len name _
  have hrest : (name ++ (key ++ junk)).drop name.length = key ++ junk :=
    drop_app_len name _
  have hpad2 : name.length - (name ++ (key ++ junk)).length = 0 := by
    simp [List.length_append]
  rw [hbuf, hrest, hpad2]
  simp only [List.replicate_zero, List.append_nil, hutf, if_true]
  have hex : readExact AEAD_KEY_LENGTH (key ++ junk) = some (key, junk) := by
    unfold readExact
    have h32 : AEAD_KEY_LENGTH ≤ (key ++ junk).length := by
      simp [List.length_append, hkey]
    rw [if_pos h32, ← hkey, take_app_len, drop_app_len]
  rw [hex]

/-- Witness for C2 at a concrete key, name, master key and nonce. -/
theorem C2_datakey_envelope_roundtrip_witness :
    DataKey.read ⟨List.replicate 32 9⟩
      (DataKey.write ⟨List.replicate 32 5, [97, 98]⟩ ⟨List.replicate 32 9⟩
        (List.replicate 12 2)) =
      .ok ⟨List.replicate 32 5, [97, 98]⟩ :=
  C2_datakey_envelope_roundtrip (List.replicate 32 5) [97, 98]
    (List.replicate 32 9) (List.replicate 12 2) (by decide) (by decide)
    (by decide) (by decide)

/-- Claim C1 (code evaluated at the failing input): decoding the canonical
encoding does NOT return the original object for a Symlink whose target
differs from its name.  MetaObject::save writes the name where the format
requires the target (metadata.rs lines 367-368), so load(save(x)) returns a
Symlink whose target equals its name, refuting the round-trip law for the
Symlink kind. -/
theorem C1_symlink_roundtrip_fails :
    MetaObject.load (MetaObject.save exSymlink) =
      .ok (.symlink ⟨[97], exFSMeta, [97]⟩) ∧
    MetaObject.load (MetaObject.save exSymlink) ≠ .ok exSymlink := by
  decide

/-- Claim C3 (code evaluated at the failing configurations): whenever the
initialization protocol performs any write to shared state, that write
happens with bkp.lock already released, because the BackendLock temporary
from `backend.lock()?` is dropped -- unlinking the lock file -- before
initialize() is entered.  This refutes the claim that the lock is held
continuously across initialization. -/
theorem C3_initialize_runs_unlocked :
    ∀ needSkeleton haveLocalDataKey haveRemoteMetaKey : Bool,
      (initializeTrace needSkeleton haveLocalDataKey
          haveRemoteMetaKey).any CreateEv.sharedWrite = true →
      initLockedThroughout
        (createTrace needSkeleton haveLocalDataKey haveRemoteMetaKey) =
        false := by
  decide

/-- Witness for C3 on a fresh target (skeleton missing, remote metadata-key
envelope missing). -/
theorem C3_initialize_runs_unlocked_witness :
    initLockedThroughout (createTrace true true false) = false :=
  C3_initialize_runs_unlocked true true false (by decide)

lemma to_hex_length (l : List Nat) : (to_hex l).length = 2 * l.length := by
  induction l with
  | nil => rfl
  | cons b bs ih =>
    simp only [to_hex, List.flatMap_cons, List.length_append,
               List.length_cons, List.length_nil] at *
    omega

/-- Claim C5 (code evaluated at the failing input): list_meta never returns
the tag of a stored metadata object.  Stored objects live under filenames
of 64 lowercase hex characters (to_hex of the 32-byte tag), but the filter
in list_meta requires the character count to equal TAG_LENGTH = 32, so
every such filename is skipped.  The second conjunct evaluates the filter
on a concrete stored filename. -/
theorem C5_list_meta_skips_stored_tags :
    (∀ t : IdentityTag, t.length = IDENTITY_LEN →
        parseTagFilename (to_hex t) = none) ∧
    list_meta_dir [to_hex (List.replicate 32 171)] = [] := by
  constructor
  · intro t ht
    unfold parseTagFilename
    rw [if_neg]
    intro hcontra
    have h2 := hcontra.2
    rw [to_hex_length, ht] at h2
    simp [IDENTITY_LEN, TAG_LENGTH] at h2
  · decide

/-- Witness for C5 at a concrete 32-byte tag. -/
theorem C5_list_meta_skips_stored_tags_witness :
    parseTagFilename (to_hex (List.replicate 32 171)) = none :=
  C5_list_meta_skips_stored_tags.1 (List.replicate 32 171) (by decide)

/-- Counterexample for C6: after the error has been yielded, a later poll of
the iterator flushes the bytes buffered before the error as a chunk.  On
the source [Ok 1, Err ()], the first poll yields the error and the second
poll emits the chunk [1] built from the partial buffer, refuting "no chunk
is ever emitted for the partial buffer ... including on any later poll". -/
theorem C6_later_poll_flushes_partial_buffer :
    chunkList 2 (chunks [Except.ok 1, Except.error ()]) =
      [Except.error (), Except.ok [1]] := by
  decide

/-- Claim C6 as amended: on the poll that encounters an error item, the
chunker yields that error immediately and emits no chunk for the partial
buffer on that poll; the buffer and running sum are retained in the state
(so a later poll may still flush the buffered bytes, e.g. at end of
stream). -/
theorem C6_error_reported_immediately {ε : Type} (data : List Nat)
    (sum : Nat) (e : ε) (rest : List (Except ε Nat)) :
    Chunks.next ⟨data, sum, .error e :: rest⟩ =
      (some (.error e), ⟨data, sum, rest⟩) := rfl

/-- Claim C9: on 5000 bytes of value 0x01 with no errors, the chunker emits
exactly two chunks: one of length 4095 (sum 1 + 4095 = 4096 hits the
divisor) and a final short chunk of length 905 at end of stream; the next
poll after those two yields nothing. -/
theorem C9_chunker_5000_ones :
    chunkList 3 (chunks (onesInput 5000)) =
      [Except.ok (List.replicate 4095 1), Except.ok (List.replicate 905 1)] := by
  have h1 : Chunks.next (chunks (onesInput 5000)) =
      (some (.ok (List.replicate 4095 1)), ⟨[], 1, onesInput 905⟩) := by
    have h := nextGo_ones_boundary 5000 [] 1 (by omega) (by omega) (by omega)
      (by norm_num)
    norm_num at h
    exact h
  have h2 : Chunks.next (⟨[], 1, onesInput 905⟩ : ChunksState Unit) =
      (some (.ok (List.replicate 905 1)), ⟨[], 906, []⟩) := by
    have h := nextGo_ones_flush 905 [] 1 (by omega) (by omega) (by norm_num)
      (by norm_num)
    norm_num at h
    exact h
  have h3 : Chunks.next (⟨[], 906, []⟩ : ChunksState Unit) =
      (none, ⟨[], 906, []⟩) := by rfl
  show chunkList (2 + 1) (chunks (onesInput 5000)) = _
  rw [chunkList, h1]
  show Except.ok (List.replicate 4095 1) ::
      chunkList (1 + 1) ⟨[], 1, onesInput 905⟩ = _
  rw [chunkList, h2]
  show Except.ok (List.replicate 4095 1) :: Except.ok (List.replicate 905 1) ::
      chunkList (0 + 1) ⟨[], 906, []⟩ = _
  rw [chunkList, h3]

/-- Counterexample for C4: meeting a Snapshot child of a Tree during descent
does not produce an integrity error in get_path -- the Snapshot has no name,
never matches the component, and the descent returns Ok(None); the claim
says this situation yields an integrity error. -/
theorem C4_snapshot_child_skipped_counterexample :
    Backend.read_meta exB4 [30] = .ok (.snapshot ⟨1, [20], none⟩) ∧
    exRootTree4.children = [[30]] ∧
    Backend.read_meta exB4 [20] = .ok (.tree exRootTree4) ∧
    get_path exB4 [.rootDir, .normal [120]] = .ok none := by
  decide

/-- Claim C4 as amended: get_path descends from the snapshot's root; when a
tree's children contain no object whose name matches the current component,
the result is Ok(None); when a non-Tree object sits at an intermediate
position the result is the integrity error.  (A Snapshot child of a Tree is
merely skipped during matching; it is not by itself an error.) -/
theorem C4_get_path_missing_vs_integrity :
    (∀ (b : Backend) (s : Snapshot) (path : List PathComp),
        get_snapshot b = .ok (some s) →
        get_path b path = get_path_go b s.root path) ∧
    (∀ (b : Backend) (current : IdentityTag) (t : TreeObject)
        (cmp : List Nat) (rest : List PathComp)
        (cs : List (IdentityTag × MetaObject)),
        b.read_meta current = .ok (.tree t) →
        readChildren b t.children = .ok cs →
        (∀ p ∈ cs, p.2.name ≠ some cmp) →
        get_path_go b current (.normal cmp :: rest) = .ok none) ∧
    (∀ (b : Backend) (current : IdentityTag) (o : MetaObject)
        (comp : PathComp) (rest : List PathComp),
        b.read_meta current = .ok o →
        (∀ t : TreeObject, o ≠ .tree t) →
        get_path_go b current (comp :: rest) = .error .integrityError) := by
  refine ⟨?_, ?_, ?_⟩
  · intro b s path h
    unfold get_path
    rw [h]
  · intro b current t cmp rest cs hread hch hnone
    have hfind : cs.find? (fun c => c.2.name == some cmp) = none := by
      apply List.find?_eq_none.mpr
      intro p hp
      simp only [beq_iff_eq]
      exact hnone p hp
    simp only [get_path_go, hread, hch, hfind]
  · intro b current o comp rest hread hnt
    cases o with
    | tree t => exact absurd rfl (hnt t)
    | snapshot s => simp only [get_path_go, hread]
    | file f => simp only [get_path_go, hread]
    | symlink l => simp only [get_path_go, hread]

/-- Witness for C4 on the exB4 store: the descent equation, an Ok(None)
result for a component with no matching child, and the integrity error for
a non-Tree intermediate object. -/
theorem C4_get_path_missing_vs_integrity_witness :
    (get_path exB4 [PathComp.rootDir, PathComp.normal [120]] =
      get_path_go exB4 [20] [PathComp.rootDir, PathComp.normal [120]]) ∧
    get_path_go exB4 [20] [PathComp.normal [120]] = .ok none ∧
    get_path_go exB4 [30] [PathComp.normal [120]] = .error .integrityError :=
  ⟨C4_get_path_missing_vs_integrity.1 exB4 ⟨0, [20], none⟩
      [PathComp.rootDir, PathComp.normal [120]] (by decide),
   C4_get_path_missing_vs_integrity.2.1 exB4 [20] exRootTree4 [120] []
      [([30], .snapshot ⟨1, [20], none⟩)] (by decide) (by decide) (by decide),
   C4_get_path_missing_vs_integrity.2.2 exB4 [30] (.snapshot ⟨1, [20], none⟩)
      (.normal [120]) [] (by decide) (fun t h => MetaObject.noConfusion h)⟩

/-- Claim C7: if a path existed in the previous snapshot, none of the
updates names it verbatim and none of the updates' paths starts with it,
then update_tree returns exactly the identity tag under which the old
object is stored in the (content-addressed) backend, and leaves the store
untouched. -/
theorem C7_update_tree_reuses_old_tag (fuel : Nat) (b : Backend)
    (root : AbsPath) (new_vals : List (AbsPath × IdentityTag))
    (t : IdentityTag) (old : MetaObject)
    (hconsist : ∀ p ∈ b.meta, p.1 = MetaObject.ident p.2)
    (hstored : (t, old) ∈ b.meta)
    (hverbatim : ∀ v ∈ new_vals, v.1 ≠ root)
    (hbelow : ∀ v ∈ new_vals, root.isPrefixOf v.1 = false)
    (hget : get_path b (pathComps root) = .ok (some old)) :
    update_tree (fuel + 1) b root new_vals = .ok (t, b) := by
  have hfind : new_vals.find? (fun x => x.1 == root) = none := by
    apply List.find?_eq_none.mpr
    intro v hv
    simp only [beq_iff_eq]
    exact hverbatim v hv
  have hany : new_vals.any (fun x => root.isPrefixOf x.1) = false := by
    apply List.any_eq_false.mpr
    intro v hv
    simp [hbelow v hv]
  have ht : t = MetaObject.ident old := hconsist (t, old) hstored
  simp only [update_tree, hfind, hget, hany, Bool.false_eq_true, if_false, ht]

/-- Witness for C7: on a consistent store holding one snapshot with an
empty root tree, update_tree of "/" with no updates returns the stored root
tag and the unchanged store. -/
theorem C7_update_tree_reuses_old_tag_witness :
    update_tree 1 exB7 [] [] = .ok (exRootTag7, exB7) :=
  C7_update_tree_reuses_old_tag 0 exB7 [] [] exRootTag7 (.tree exRt7)
    (by decide) (by decide) (by decide) (by decide) (by decide)

/-- Claim C8: the integrity check's boolean verdict and error channel.
First conjunct: reading a missing metadata object in check_file is a
backend error, never the boolean false.  Second conjunct: a structural
failure (a child tag resolving to a Snapshot) makes check_tree return
Ok(false), short-circuiting -- the remaining children (including tags
absent from the store) are never visited.  Third conjunct: a missing
metadata object in the snapshot chain (a dangling parent tag) surfaces
from check as an error, not as false. -/
theorem C8_check_false_shortcircuits_errors_propagate :
    (∀ (b : Backend) (mode : IntegrityTestMode) (fuel : Nat)
        (tag : IdentityTag),
        b.lookupMeta tag = none →
        check_file b mode (fuel + 1) tag = .error (.backend .backendError)) ∧
    (∀ (b : Backend) (mode : IntegrityTestMode) (fuel : Nat)
        (tag c : IdentityTag) (t : TreeObject) (s : Snapshot)
        (cs : List IdentityTag),
        b.lookupMeta tag = some (.tree t) →
        t.children = c :: cs →
        b.lookupMeta c = some (.snapshot s) →
        check_tree b mode (fuel + 1 + 1) tag = .ok false) ∧
    (∀ (b : Backend) (mode : IntegrityTestMode) (fuel : Nat)
        (ht : IdentityTag) (s : Snapshot) (p : IdentityTag),
        b.head = some ht →
        b.lookupMeta ht = some (.snapshot s) →
        s.parent = some p →
        b.lookupMeta p = none →
        check b mode (fuel + 1) = .error (.backend .backendError)) := by
  refine ⟨?_, ?_, ?_⟩
  · intro b mode fuel tag h
    simp only [check_file, Backend.read_meta, h]
  · intro b mode fuel tag c t s cs htree hchild hsnap
    simp only [check_tree, Backend.read_meta, htree, hchild, check_children,
               check_file, hsnap]
  · intro b mode fuel ht s p hhead hsnap hpar hmiss
    simp only [check, Backend.get_head, hhead, Backend.read_meta, hsnap,
               Except.map, check_chain, hpar, hmiss]

/-- Witness for C8 on three concrete stores: a missing object under
check_file, a Snapshot child (with a missing sibling) under check_tree, and
a dangling parent tag under check. -/
theorem C8_check_false_shortcircuits_errors_propagate_witness :
    check_file exB8a .quick 1 [1] = .error (.backend .backendError) ∧
    check_tree exB8b .quick 2 [1] = .ok false ∧
    check exB8c .quick 1 = .error (.backend .backendError) :=
  ⟨C8_check_false_shortcircuits_errors_propagate.1 exB8a .quick 0 [1]
      (by decide),
   C8_check_false_shortcircuits_errors_propagate.2.1 exB8b .quick 0 [1] [2]
      ⟨[], exFSMeta, [[2], [3]]⟩ ⟨0, [9], none⟩ [[3]] (by decide) (by decide)
      (by decide),
   C8_check_false_shortcircuits_errors_propagate.2.2 exB8c .quick 0 [1]
      ⟨0, [5], some [4]⟩ [4] (by decide) (by decide) (by decide) (by decide)⟩

lemma readChildren_mem (b : Backend) :
    ∀ (l : List IdentityTag) (cs : List (IdentityTag × MetaObject)),
      readChildren b l = .ok cs → ∀ p ∈ cs, b.read_meta p.1 = .ok p.2 := by
  intro l
  induction l with
  | nil =>
    intro cs h p hp
    simp only [readChildren] at h
    injection h with h1
    subst h1
    simp at hp
  | cons t ts ih =>
    intro cs h p hp
    simp only [readChildren] at h
    cases hr : b.read_meta t with
    | error e => simp only [hr] at h; exact Except.noConfusion h
    | ok o =>
      simp only [hr] at h
      cases hrest : readChildren b ts with
      | error e => simp only [hrest] at h; exact Except.noConfusion h
      | ok rs =>
        simp only [hrest] at h
        injection h with h1
        subst h1
        rcases List.mem_cons.mp hp with rfl | hp2
        · exact hr
        · exact ih rs hrest p hp2

lemma get_id_scan_found (part : List Nat) :
    ∀ (cs : List (IdentityTag × MetaObject)) (ident : IdentityTag),
      get_id_scan part cs = .found ident →
      ∃ o, (ident, o) ∈ cs ∧
        ((∃ f, o = .file f) ∨ (∃ l, o = .symlink l)) := by
  intro cs
  induction cs with
  | nil => intro ident h; exact ChildScan.noConfusion h
  | cons c cs ih =>
    intro ident h
    obtain ⟨i, obj⟩ := c
    cases obj with
    | tree tt =>
      simp only [get_id_scan] at h
      by_cases hn : (tt.name == part) = true
      · rw [if_pos hn] at h
        exact ChildScan.noConfusion h
      · rw [if_neg hn] at h
        obtain ⟨o, hmem, hk⟩ := ih ident h
        exact ⟨o, List.mem_cons_of_mem _ hmem, hk⟩
    | file ff =>
      simp only [get_id_scan] at h
      by_cases hn : (ff.name == part) = true
      · rw [if_pos hn] at h
        injection h with h1
        subst h1
        exact ⟨.file ff, List.mem_cons_self _ _, .inl ⟨ff, rfl⟩⟩
      · rw [if_neg hn] at h
        obtain ⟨o, hmem, hk⟩ := ih ident h
        exact ⟨o, List.mem_cons_of_mem _ hmem, hk⟩
    | symlink ll =>
      simp only [get_id_scan] at h
      by_cases hn : (ll.name == part) = true
      · rw [if_pos hn] at h
        injection h with h1
        subst h1
        exact ⟨.symlink ll, List.mem_cons_self _ _, .inr ⟨ll, rfl⟩⟩
      · rw [if_neg hn] at h
        exact ChildScan.noConfusion h
    | snapshot ss =>
      simp only [get_id_scan] at h
      exact ChildScan.noConfusion h

lemma get_id_go_some (b : Backend) :
    ∀ (pth : List (List Nat)) (t : TreeObject) (tag : IdentityTag),
      get_id_go b pth t = .ok (some tag) →
      ∃ o, b.read_meta tag = .ok o ∧
        ((∃ f, o = .file f) ∨ (∃ l, o = .symlink l)) := by
  intro pth
  induction pth with
  | nil => intro t tag h; simp [get_id_go] at h
  | cons part rest ih =>
    intro t tag h
    simp only [get_id_go] at h
    cases hc : readChildren b t.children with
    | error e => simp only [hc] at h; exact Except.noConfusion h
    | ok children =>
      simp only [hc] at h
      cases hs : get_id_scan part children with
      | found ident =>
        rw [hs] at h
        injection h with h1
        injection h1 with h2
        subst h2
        obtain ⟨o, hmem, hk⟩ := get_id_scan_found part children ident hs
        exact ⟨o, readChildren_mem b t.children children hc (ident, o) hmem,
               hk⟩
      | descend t' =>
        rw [hs] at h
        exact ih t' tag h
      | missing =>
        rw [hs] at h
        injection h with h1
        exact Option.noConfusion h1
      | err e =>
        rw [hs] at h
        exact Except.noConfusion h

/-- Counterexample for C10: first conjunct -- the path "a", which names an
existing Tree child, makes get_id return the integrity error (not Ok(None))
because a Symlink sibling named "b" is examined first and its name does not
match.  Second conjunct -- a path with a trailing component still returns
Ok(Some(tag)) when an intermediate component matches a File child, so not
only final-component matches yield Some. -/
theorem C10_counterexamples :
    (Backend.read_meta exB10 [3] = .ok (.tree ⟨[97], exFSMeta, []⟩) ∧
     get_id exB10 exTree10 [[97]] = .error .integrityError) ∧
    (Backend.read_meta exB10b [4] = .ok (.file ⟨[97], exFSMeta, []⟩) ∧
     get_id exB10b exTree10b [[97], [98]] = .ok (some [4])) := by
  decide

/-- Claim C10 as amended: the empty path always yields Ok(None), and a Tree
is never returned as a found object -- whenever get_id yields Ok(Some(tag)),
the tag resolves to a File or Symlink.  (The original claim's further
statements -- Ok(None) for every path naming an existing directory, and
Some only for final-component matches -- fail on the code: a name-mismatched
Symlink or Snapshot sibling aborts the descent with an integrity error, and
a File or Symlink match at any component returns its tag immediately.) -/
theorem C10_get_id_result_kinds :
    (∀ (b : Backend) (t : TreeObject), get_id b t [] = .ok none) ∧
    (∀ (b : Backend) (t : TreeObject) (pth : List (List Nat))
        (tag : IdentityTag),
        get_id b t pth = .ok (some tag) →
        ∃ o, b.read_meta tag = .ok o ∧
          ((∃ f, o = .file f) ∨ (∃ l, o = .symlink l))) := by
  constructor
  · intro b t
    rfl
  · intro b t pth tag h
    exact get_id_go_some b pth t tag h

/-- Witness for C10 on the exB10b store. -/
theorem C10_get_id_result_kinds_witness :
    ∃ o, Backend.read_meta exB10b [4] = .ok o ∧
      ((∃ f, o = .file f) ∨ (∃ l, o = .symlink l)) :=
  C10_get_id_result_kinds.2 exB10b exTree10b [[97], [98]] [4] (by decide)

end Bkp






